import Mathlib

/-!
# Verification of the Excel/CSV File Merge Engine

A shallow embedding, in Lean 4, of the merge pipeline of `compiler.py`
(classes `FileVerification`, `CompilationWorker`, and the sort-column
conversion of `ModernExcelCompilerApp`), together with proofs and
refutations of the specified properties of that pipeline.

Modelling conventions:

* A worksheet / dataframe is a `Grid V`: a list of rows, each row a list of
  cells; a cell is `Option V`, where `none` models Python `None` (and pandas
  missing values, which the code tests with `pd.isna`).  `V` is the type of
  scalar cell values, assumed linearly ordered where the code compares cells;
  file names and the `"Fichier source"` label are values of `V` as well.
* Python `str(...)` is modelled by an abstract `toStr : V → String` carried in
  the configuration.
* Python exceptions are modelled by `Option`/explicit outcome constructors;
  each spot is noted next to the corresponding definition.
* Python's `sorted`/`list.sort` (Timsort) is a stable sort; any two stable
  sorts of the same list under the same total preorder coincide, so it is
  modelled by `List.insertionSort`, which is stable and executable.
-/

namespace ExcelCompiler

/-- One cell of a worksheet row: `none` is Python `None` / pandas `NaN`. -/
abbrev Row (V : Type) := List (Option V)

/-- A worksheet (or dataframe): the list of its rows, row 1 at index 0. -/
abbrev Grid (V : Type) := List (Row V)

/-- A merged rectangular cell range, as held by `ws.merged_cells.ranges`
(`openpyxl.worksheet.cell_range.CellRange`): 1-based row and column bounds. -/
structure MRange where
  min_row : Nat
  min_col : Nat
  max_row : Nat
  max_col : Nat
deriving DecidableEq

/-- The per-run configuration of `CompilationWorker.__init__`
(compiler.py 620-651).  `toStr` models Python `str` on cell values;
`fichier_source` models the constant label `"Fichier source"` appended at
compiler.py 711 (a plain `V`-value so that cells stay uniformly typed).
`date_format` is omitted: it is consumed only by the output formatter. -/
structure Cfg (V : Type) where
  header_start_row : Nat
  header_rows : Nat
  add_filename : Bool
  sort_data : Bool
  sort_column : Int
  repeat_headers : Bool
  remove_empty_rows : Bool
  remove_duplicates : Bool
  toStr : V → String
  fichier_source : V

/-- Python list indexing `r[i]`: a negative index counts from the end;
`none` models an `IndexError`. -/
def pyGet {α : Type} (r : List α) (i : Int) : Option α :=
  let j : Int := if i < 0 then i + r.length else i
  if j < 0 then none else r[j.toNat]?

/-- Model of `ws[row]` for a 1-based row number: the cells of that row; a row beyond
the populated region yields the empty cell tuple. -/
def wsRow {V : Type} (grid : Grid V) (row : Nat) : Row V :=
  (grid[row - 1]?).getD []

/-! ## Sort-column conversion (`ModernExcelCompilerApp.get_sort_column_index`)

Python string primitives used by `get_sort_column_index`
(`str.strip`, `str.upper`, `int(...)`) are modelled directly on the
character list of the string, so that the embedding is executable. -/

/-- Python `str.strip()` (whitespace only): drop leading and trailing
whitespace characters. -/
def pyStrip (s : List Char) : List Char :=
  ((s.dropWhile Char.isWhitespace).reverse.dropWhile Char.isWhitespace).reverse

/-- Python `str.upper()` on ASCII data (the only case exercised by column
letters and numerals). -/
def pyUpper (s : List Char) : List Char :=
  s.map Char.toUpper

/-- Value of a digit list, most significant first. -/
def digitsVal : List Char → Nat → Option Nat
  | [], acc => some acc
  | c :: rest, acc =>
    if c.isDigit then digitsVal rest (acc * 10 + (c.toNat - '0'.toNat)) else none

/-- Python `int(s)` on an already-stripped string: an optional sign followed
by at least one decimal digit; `none` models `ValueError`.  (Digit-group
underscores, accepted by Python 3.6+, do not occur for the inputs at hand
and are not modelled.) -/
def pyInt (s : List Char) : Option Int :=
  match s with
  | [] => none
  | '-' :: rest =>
    if rest = [] then none else (digitsVal rest 0).map (fun n => -(n : Int))
  | '+' :: rest =>
    if rest = [] then none else (digitsVal rest 0).map (fun n => (n : Int))
  | _ => (digitsVal s 0).map (fun n => (n : Int))

/-- Embedding of `ModernExcelCompilerApp.get_sort_column_index` (compiler.py 3493-3513):
strip and upper-case the entered text; empty text gives 0; a single letter
`A`..`Z` gives `ord(c) - ord('A')`; otherwise try `int(text)` and return
`max 0 (n - 1)`; on `ValueError` return 0. -/
def get_sort_column_index (text : String) : Int :=
  let sort_text : List Char := pyUpper (pyStrip text.data)
  match sort_text with
  | [] => 0
  | [c] =>
    if 'A' ≤ c ∧ c ≤ 'Z' then (c.toNat : Int) - ('A'.toNat : Int)
    else
      match pyInt sort_text with
      | some n => max 0 (n - 1)
      | none => 0
  | _ :: _ :: _ =>
    match pyInt sort_text with
    | some n => max 0 (n - 1)
    | none => 0

/-! ## Duplicate removal (`CompilationWorker._remove_duplicate_rows`) -/

/-- The key under which `_remove_duplicate_rows` (compiler.py 910) hashes a
row: `tuple(str(cell) if cell is not None else None for cell in row)` — the
string form of each cell, with `None` kept as a sentinel (`none`) distinct
from any string, in particular from `"None"`. -/
def rowKey {V : Type} (toStr : V → String) (row : Row V) : List (Option String) :=
  row.map (fun cell => cell.map toStr)

/-- The accumulation loop of `_remove_duplicate_rows` (compiler.py 905-916):
`seen` models the Python `set` of keys (as the list of keys added so far). -/
def remove_duplicate_rows_go {V : Type} (toStr : V → String)
    (seen : List (List (Option String))) : List (Row V) → List (Row V)
  | [] => []
  | row :: rest =>
    if rowKey toStr row ∈ seen then
      remove_duplicate_rows_go toStr seen rest
    else
      row :: remove_duplicate_rows_go toStr (rowKey toStr row :: seen) rest

/-- Embedding of `CompilationWorker._remove_duplicate_rows` (compiler.py 895-916). -/
def remove_duplicate_rows {V : Type} (toStr : V → String) (data : List (Row V)) :
    List (Row V) :=
  remove_duplicate_rows_go toStr [] data

/-- Modelled from the spec's words (§4.3 step 1): "keep first occurrence,
drop subsequent exact duplicates" — keep each row whose key has not occurred
before it. -/
def keepFirstOccurrences {V : Type} (toStr : V → String) : List (Row V) → List (Row V)
  | [] => []
  | row :: rest =>
    row :: keepFirstOccurrences toStr
      (rest.filter (fun s => !(decide (rowKey toStr s = rowKey toStr row))))
termination_by l => l.length
decreasing_by
  simp only [List.length_cons]
  exact Nat.lt_succ_of_le (List.length_filter_le _ _)

/-! ## Sorting (`CompilationWorker._sort_data`) -/

/-- Order on the Python sort key `(x[i] is None, x[i])` (compiler.py 963, 978)
for two cell values: tuple comparison puts `None` cells after all non-`None`
cells and never compares `None` with a value. -/
def keyLE {V : Type} [LinearOrder V] : Option V → Option V → Bool
  | some a, some b => decide (a ≤ b)
  | some _, none => true
  | none, some _ => false
  | none, none => true

/-- The row comparison induced by the sort key on column `i` (Python
indexing, so `i` may be negative). -/
def rowLE {V : Type} [LinearOrder V] (i : Int) (r s : Row V) : Prop :=
  keyLE ((pyGet r i).join) ((pyGet s i).join) = true

instance {V : Type} [LinearOrder V] (i : Int) : DecidableRel (rowLE (V := V) i) :=
  fun r s => instDecidableEqBool (keyLE ((pyGet r i).join) ((pyGet s i).join)) true

/-- A fully blank row, as tested at compiler.py 939:
`all(cell is None for cell in row)`. -/
def rowAllNone {V : Type} (row : Row V) : Bool :=
  row.all (fun cell => cell.isNone)

/-- The section-splitting loop of `_sort_data` (compiler.py 934-947): walk the
rows, starting a new section at every fully blank separator row. -/
def splitSectionsGo {V : Type} (sections : List (List (Row V)))
    (current : List (Row V)) : List (Row V) → List (List (Row V))
  | [] => if current.isEmpty then sections else sections ++ [current]
  | row :: rest =>
    if rowAllNone row then
      splitSectionsGo (if current.isEmpty then sections else sections ++ [current])
        [row] rest
    else
      splitSectionsGo sections (current ++ [row]) rest

/-- Partition of the combined rows into sections delimited by fully blank
rows (compiler.py 934-947). -/
def splitSections {V : Type} (data : List (Row V)) : List (List (Row V)) :=
  splitSectionsGo [] [] data

/-- Embedding of `CompilationWorker._sort_data` (compiler.py 918-982).  `sort_idx` is
`self.sort_column - 1` (line 930).  Python raises `IndexError` while
computing a key whenever a row lacks index `sort_idx`; the exception is
caught at line 980 and the original data returned, which the embedding
renders as an up-front guard (`TypeError` between incomparable values cannot
arise here because cell values share the linearly ordered type `V`).  In the
sectioned branch the first `header_rows + 1` rows of each section are held
back (lines 955-960) and only the remainder is sorted (line 963). -/
def sort_data_fn {V : Type} [LinearOrder V] (cfg : Cfg V) (data : List (Row V)) :
    List (Row V) :=
  if cfg.repeat_headers then
    if (splitSections data).all (fun s =>
        (s.drop (cfg.header_rows + 1)).all (fun r =>
          (pyGet r (cfg.sort_column - 1)).isSome)) then
      ((splitSections data).map (fun s =>
        s.take (cfg.header_rows + 1) ++
          List.insertionSort (rowLE (cfg.sort_column - 1))
            (s.drop (cfg.header_rows + 1)))).flatten
    else data
  else
    if data.all (fun r => (pyGet r (cfg.sort_column - 1)).isSome) then
      List.insertionSort (rowLE (cfg.sort_column - 1)) data
    else data

/-! ## Per-file extraction (`_extract_excel_data`, `_process_excel_file`,
`_process_csv_file`) -/

/-- One cell of the emptiness test at compiler.py 805-808 / 887-890:
`cell is None or str(cell).strip() == ""` (`pd.isna(cell)` in the CSV
variant, which the `Option`-cell model renders identically). -/
def cellBlank {V : Type} (toStr : V → String) (cell : Option V) : Bool :=
  match cell with
  | none => true
  | some v => ((toStr v).trim == "")

/-- The emptiness test of compiler.py 805-808: all cells blank, the trailing
source-label cell (`row_data[:-1]` when `add_filename`) excluded. -/
def rowConsideredEmpty {V : Type} (cfg : Cfg V) (row_data : Row V) : Bool :=
  (if cfg.add_filename then row_data.dropLast else row_data).all (cellBlank cfg.toStr)

/-- Embedding of `CompilationWorker._extract_excel_data` (compiler.py 771-811), translated
verbatim.  Note that the repeated-header block (lines 785-794) is guarded by
`len(data) > 0` where `data` was initialised to `[]` on line 782. -/
def extract_excel_data {V : Type} (cfg : Cfg V) (grid : Grid V) (filename : V) :
    List (Row V) :=
  let data : List (Row V) := []
  let data :=
    if cfg.repeat_headers ∧ data.length > 0 then
      data ++
        [List.replicate
          ((wsRow grid cfg.header_start_row).length +
            (if cfg.add_filename then 1 else 0)) (none : Option V)] ++
        ((List.range cfg.header_rows).map (fun k =>
          let row_data := wsRow grid (cfg.header_start_row + k)
          if cfg.add_filename then row_data ++ [none] else row_data))
    else data
  data ++
    ((grid.drop (cfg.header_start_row + cfg.header_rows - 1)).filterMap (fun row =>
      let row_data := if cfg.add_filename then row ++ [some filename] else row
      if !cfg.remove_empty_rows || !rowConsideredEmpty cfg row_data then
        some row_data
      else none))

/-- Modelled from the spec's words (§4.1 `data_rows`): the plain data rows —
every row from `header_start_row + header_rows` to the end of the file, with
the optional source-label cell appended, filtered by the empty-row option —
and nothing else. -/
def excelDataRowsPlain {V : Type} (cfg : Cfg V) (grid : Grid V) (filename : V) :
    List (Row V) :=
  (grid.drop (cfg.header_start_row + cfg.header_rows - 1)).filterMap (fun row =>
    let row_data := if cfg.add_filename then row ++ [some filename] else row
    if !cfg.remove_empty_rows || !rowConsideredEmpty cfg row_data then
      some row_data
    else none)

/-- What one processed file hands back to the merge loop: the (extended)
preliminary rows together with the `(file_headers, file_data,
file_merged_cells)` tuple returned at compiler.py 769 / 893. -/
structure ProcOut (V : Type) where
  preliminary_info : List (Row V)
  file_headers : List (Row V)
  file_data : List (Row V)
  file_merged_cells : List MRange

/-- The header-capture loop of `_process_excel_file` (compiler.py 748-759):
for each header row number, append the row to `file_headers` and — when the
worksheet exposes `merged_cells` — append every merged range whose top row is
`≤ header_start_row + header_rows` to `file_merged_cells`.  (The merged-range
scan is nested inside the header-row loop, exactly as in the source.) -/
def headerLoop {V : Type} (cfg : Cfg V) (grid : Grid V) (ranges : List MRange)
    (hasMerged : Bool) (ks : List Nat) (acc : List (Row V) × List MRange) :
    List (Row V) × List MRange :=
  match ks with
  | [] => acc
  | k :: rest =>
    let header_row := wsRow grid (cfg.header_start_row + k)
    let acc1 := acc.1 ++ [header_row]
    let acc2 :=
      if hasMerged then
        acc.2 ++ ranges.filter (fun mr =>
          decide (mr.min_row ≤ cfg.header_start_row + cfg.header_rows))
      else acc.2
    headerLoop cfg grid ranges hasMerged rest (acc1, acc2)

/-- Embedding of `CompilationWorker._process_excel_file` (compiler.py 716-769).  The first
file (`file_index = 0`) is loaded without `read_only`, so its worksheet has
the `merged_cells` attribute; later files are loaded read-only and lack it
(cf. the comment at compiler.py 729-730), hence `hasMerged := file_index == 0`.
A file whose opening or reading raises is represented upstream as a
`SrcFile.readFailure` and never reaches this function. -/
def process_excel_file {V : Type} (cfg : Cfg V) (grid : Grid V)
    (ranges : List MRange) (filename : V) (file_index : Nat)
    (global_headers : Option (List (Row V))) (preliminary_info : List (Row V)) :
    ProcOut V :=
  let preliminary_info :=
    if file_index = 0 ∧ cfg.header_start_row > 1 then
      preliminary_info ++
        ((List.range (cfg.header_start_row - 1)).map (fun k => wsRow grid (1 + k)))
    else preliminary_info
  let hm :=
    match global_headers with
    | none =>
      headerLoop cfg grid ranges (file_index == 0) (List.range cfg.header_rows) ([], [])
    | some gh => (gh, [])
  let file_data := extract_excel_data cfg grid filename
  ⟨preliminary_info, hm.1, file_data, hm.2⟩

/-- Embedding of `CompilationWorker._process_csv_file` (compiler.py 813-893), acting on the
dataframe produced by `pd.read_csv` (`grid`, 0-based rows).  Encoding probing
and delimiter sniffing concern the byte-level reading; a file on which they
fail raises and is represented upstream as `SrcFile.readFailure`.  As in
`_extract_excel_data`, the repeated-header block (lines 867-876) is guarded by
`len(file_data) > 0` on a list just initialised to `[]` (line 864; inside that
dead branch `file_headers[-1]` is modelled total, by `getLastD`). -/
def process_csv_file {V : Type} (cfg : Cfg V) (grid : Grid V) (filename : V)
    (file_index : Nat) (global_headers : Option (List (Row V)))
    (preliminary_info : List (Row V)) : ProcOut V :=
  let preliminary_info :=
    if file_index = 0 ∧ cfg.header_start_row > 1 then
      preliminary_info ++
        ((List.range (cfg.header_start_row - 1)).filterMap (fun row => grid[row]?))
    else preliminary_info
  let file_headers :=
    match global_headers with
    | none =>
      (List.range cfg.header_rows).filterMap (fun k =>
        grid[cfg.header_start_row - 1 + k]?)
    | some gh => gh
  let file_data : List (Row V) := []
  let file_data :=
    if cfg.repeat_headers ∧ file_data.length > 0 then
      file_data ++
        [List.replicate
          ((file_headers.getLastD []).length +
            (if cfg.add_filename then 1 else 0)) (none : Option V)] ++
        (file_headers.map (fun hrow =>
          if cfg.add_filename then hrow ++ [none] else hrow))
    else file_data
  let file_data := file_data ++
    ((grid.drop (cfg.header_start_row - 1 + cfg.header_rows)).filterMap (fun row =>
      let row_data := if cfg.add_filename then row ++ [some filename] else row
      if !cfg.remove_empty_rows || !rowConsideredEmpty cfg row_data then
        some row_data
      else none))
  ⟨preliminary_info, file_headers, file_data, []⟩

/-- Modelled from the spec's words (§4.1 `data_rows`, CSV case): the plain
data rows of a CSV source, and nothing else. -/
def csvDataRowsPlain {V : Type} (cfg : Cfg V) (grid : Grid V) (filename : V) :
    List (Row V) :=
  (grid.drop (cfg.header_start_row - 1 + cfg.header_rows)).filterMap (fun row =>
    let row_data := if cfg.add_filename then row ++ [some filename] else row
    if !cfg.remove_empty_rows || !rowConsideredEmpty cfg row_data then
      some row_data
    else none)

/-! ## The merge loop (`CompilationWorker.run`) -/

/-- The reason recorded for a failed file (compiler.py 676, 692-696). -/
inductive FailReason where
  | unsupportedFormat
  | readError
deriving DecidableEq

/-- One input file as the merge loop sees it.  `excel`/`csv` carry the grid
the underlying reader yields; `unsupported` is a file of neither extension
(line 676); `readFailure` is a file whose opening or extraction raises
(caught at line 692). -/
inductive SrcFile (V : Type) where
  | excel (name : V) (grid : Grid V) (ranges : List MRange)
  | csv (name : V) (grid : Grid V)
  | unsupported (name : V)
  | readFailure (name : V)

/-- Whether the merge loop reads this file successfully. -/
def SrcFile.isReadable {V : Type} : SrcFile V → Bool
  | .excel _ _ _ => true
  | .csv _ _ => true
  | .unsupported _ => false
  | .readFailure _ => false

/-- The header rows the reader extracts from a file when no global headers
are established yet (compiler.py 748-753 / 856-859). -/
def fileHeaders {V : Type} (cfg : Cfg V) : SrcFile V → List (Row V)
  | .excel _ grid _ =>
    (List.range cfg.header_rows).map (fun k => wsRow grid (cfg.header_start_row + k))
  | .csv _ grid =>
    (List.range cfg.header_rows).filterMap (fun k =>
      grid[cfg.header_start_row - 1 + k]?)
  | .unsupported _ => []
  | .readFailure _ => []

/-- The mutable state of `CompilationWorker.run` (compiler.py 658-664). -/
structure RunState (V : Type) where
  combined_data : List (Row V)
  headers : Option (List (Row V))
  merged_cells : List MRange
  preliminary_info : List (Row V)
  successful_files : List V
  failed_files : List (V × FailReason)

/-- The initial state of the loop (compiler.py 658-664). -/
def initState {V : Type} : RunState V := ⟨[], none, [], [], [], []⟩

/-- One iteration of the `for i, file in enumerate(self.files)` loop
(compiler.py 666-697): dispatch on the file kind, record a failure, or merge
the processed result (headers/merged cells adopted only while `headers is
None`, data appended, file recorded as successful).  Progress/error signal
emissions are UI-only and not modelled. -/
def processOne {V : Type} (cfg : Cfg V) (st : RunState V) (i : Nat) (f : SrcFile V) :
    RunState V :=
  match f with
  | .excel name grid ranges =>
    let out := process_excel_file cfg grid ranges name i st.headers st.preliminary_info
    { st with
      preliminary_info := out.preliminary_info
      headers := if st.headers.isNone then some out.file_headers else st.headers
      merged_cells := if st.headers.isNone then out.file_merged_cells else st.merged_cells
      combined_data := st.combined_data ++ out.file_data
      successful_files := st.successful_files ++ [name] }
  | .csv name grid =>
    let out := process_csv_file cfg grid name i st.headers st.preliminary_info
    { st with
      preliminary_info := out.preliminary_info
      headers := if st.headers.isNone then some out.file_headers else st.headers
      merged_cells := if st.headers.isNone then out.file_merged_cells else st.merged_cells
      combined_data := st.combined_data ++ out.file_data
      successful_files := st.successful_files ++ [name] }
  | .unsupported name =>
    { st with failed_files := st.failed_files ++ [(name, .unsupportedFormat)] }
  | .readFailure name =>
    { st with failed_files := st.failed_files ++ [(name, .readError)] }

/-- The file loop of `CompilationWorker.run`, threading the enumeration
index. -/
def runLoop {V : Type} (cfg : Cfg V) : RunState V → Nat → List (SrcFile V) → RunState V
  | st, _, [] => st
  | st, i, f :: rest => runLoop cfg (processOne cfg st i f) (i + 1) rest

/-- Python truthiness of the `headers` variable at compiler.py 700/710:
`None` and the empty list are falsy. -/
def headersTruthy {V : Type} : Option (List (Row V)) → Bool
  | none => false
  | some hs => !hs.isEmpty

/-- Model of `headers[-1].append("Fichier source")` (compiler.py 711); total on the
empty header list, which the truthiness guard keeps unreachable. -/
def appendSourceLabel {V : Type} (headers : Option (List (Row V))) (label : V) :
    Option (List (Row V)) :=
  match headers with
  | none => none
  | some hs => some (hs.dropLast ++ [hs.getLastD [] ++ [some label]])

/-- The post-compilation block of `CompilationWorker.run` (compiler.py
699-711), applied to the state left by the file loop: when rows were merged
and headers are (truthily) set, deduplicate if asked, then sort if asked and
the 0-based sort column is below the last header row's width, then append the
source-label header cell if asked. -/
def postProcess {V : Type} [LinearOrder V] (cfg : Cfg V) (st : RunState V) :
    RunState V :=
  if !st.combined_data.isEmpty && headersTruthy st.headers then
    { st with
      combined_data :=
        if cfg.sort_data ∧
            cfg.sort_column < (((st.headers.getD []).getLastD []).length : Int) then
          sort_data_fn cfg
            (if cfg.remove_duplicates then
              remove_duplicate_rows cfg.toStr st.combined_data
            else st.combined_data)
        else
          (if cfg.remove_duplicates then
            remove_duplicate_rows cfg.toStr st.combined_data
          else st.combined_data)
      headers :=
        if cfg.add_filename && headersTruthy st.headers then
          appendSourceLabel st.headers cfg.fichier_source
        else st.headers }
  else st

/-- Embedding of `CompilationWorker.run` (compiler.py 653-714): the file loop followed by
the post-compilation block. -/
def run {V : Type} [LinearOrder V] (cfg : Cfg V) (files : List (SrcFile V)) :
    RunState V :=
  postProcess cfg (runLoop cfg initState 0 files)

/-! ## Supporting lemmas: duplicate removal -/

/-- Every row kept by `keepFirstOccurrences` comes from the input. -/
theorem mem_keepFirstOccurrences {V : Type} (toStr : V → String) :
    ∀ (l : List (Row V)) (a : Row V), a ∈ keepFirstOccurrences toStr l → a ∈ l
  | [], a, h => by rw [keepFirstOccurrences] at h; exact absurd h (List.not_mem_nil a)
  | row :: rest, a, h => by
    rw [keepFirstOccurrences] at h
    rcases List.mem_cons.mp h with h1 | h2
    · exact h1 ▸ List.mem_cons_self _ _
    · exact List.mem_cons_of_mem _
        (List.mem_of_mem_filter (mem_keepFirstOccurrences toStr _ a h2))
termination_by l => l.length
decreasing_by
  simp only [List.length_cons]
  exact Nat.lt_succ_of_le (List.length_filter_le _ _)

/-- The accumulation loop of `_remove_duplicate_rows` computes
`keepFirstOccurrences` of the rows whose key is not yet `seen`. -/
theorem remove_duplicate_rows_go_eq {V : Type} (toStr : V → String) :
    ∀ (l : List (Row V)) (seen : List (List (Option String))),
      remove_duplicate_rows_go toStr seen l =
        keepFirstOccurrences toStr
          (l.filter (fun r => !(decide (rowKey toStr r ∈ seen))))
  | [], seen => by
    rw [remove_duplicate_rows_go, List.filter_nil, keepFirstOccurrences]
  | row :: rest, seen => by
    rw [remove_duplicate_rows_go, List.filter_cons]
    by_cases hmem : rowKey toStr row ∈ seen
    · rw [if_pos hmem, remove_duplicate_rows_go_eq toStr rest seen]
      simp [hmem]
    · rw [if_neg hmem, remove_duplicate_rows_go_eq toStr rest (rowKey toStr row :: seen)]
      rw [if_pos (show (!(decide (rowKey toStr row ∈ seen))) = true by simp [hmem])]
      rw [keepFirstOccurrences, List.filter_filter]
      congr 2
      apply List.filter_congr
      intro r _
      by_cases h1 : rowKey toStr r = rowKey toStr row <;>
        by_cases h2 : rowKey toStr r ∈ seen <;>
          simp [h1, h2, List.mem_cons]
termination_by l => l.length
decreasing_by
  all_goals
    simp only [List.length_cons]
    omega

/-- Deduplication is exactly "keep the first occurrence of each
key". -/
theorem remove_duplicate_rows_eq_keepFirst {V : Type} (toStr : V → String)
    (data : List (Row V)) :
    remove_duplicate_rows toStr data = keepFirstOccurrences toStr data := by
  rw [remove_duplicate_rows, remove_duplicate_rows_go_eq]
  congr 1
  apply List.filter_eq_self.mpr
  intro a _
  simp

/-- Keeping first occurrences is an idempotent operation. -/
theorem keepFirstOccurrences_idem {V : Type} (toStr : V → String) :
    ∀ l : List (Row V),
      keepFirstOccurrences toStr (keepFirstOccurrences toStr l) =
        keepFirstOccurrences toStr l
  | [] => by simp [keepFirstOccurrences]
  | row :: rest => by
    have e1 : keepFirstOccurrences toStr (row :: rest) =
        row :: keepFirstOccurrences toStr
          (rest.filter (fun s => !(decide (rowKey toStr s = rowKey toStr row)))) := by
      rw [keepFirstOccurrences]
    rw [e1, keepFirstOccurrences]
    have hfilter :
        (keepFirstOccurrences toStr
            (rest.filter (fun s => !(decide (rowKey toStr s = rowKey toStr row))))).filter
            (fun s => !(decide (rowKey toStr s = rowKey toStr row))) =
          keepFirstOccurrences toStr
            (rest.filter (fun s => !(decide (rowKey toStr s = rowKey toStr row)))) := by
      apply List.filter_eq_self.mpr
      intro a ha
      have hmem := mem_keepFirstOccurrences toStr _ a ha
      exact (List.mem_filter.mp hmem).2
    rw [hfilter]
    rw [keepFirstOccurrences_idem toStr _]
termination_by l => l.length
decreasing_by
  simp only [List.length_cons]
  exact Nat.lt_succ_of_le (List.length_filter_le _ _)

/-- C9 — Deduplication: `_remove_duplicate_rows` keeps the first occurrence of
each row key and drops every later row with an equal key (key = the tuple of
per-cell string representations, `None` kept as a sentinel distinct from the
string `"None"`), and the operation is idempotent. -/
theorem remove_duplicate_rows_spec :
    (∀ (V : Type) (toStr : V → String) (data : List (Row V)),
        remove_duplicate_rows toStr (remove_duplicate_rows toStr data) =
          remove_duplicate_rows toStr data
        ∧ remove_duplicate_rows toStr data = keepFirstOccurrences toStr data)
    ∧ rowKey (fun s => s) [none] ≠ rowKey (fun s => s) [some "None"] := by
  constructor
  · intro V toStr data
    refine ⟨?_, remove_duplicate_rows_eq_keepFirst toStr data⟩
    rw [remove_duplicate_rows_eq_keepFirst, remove_duplicate_rows_eq_keepFirst]
    exact keepFirstOccurrences_idem toStr data
  · decide

/-! ## C3 — the sort-column conversion -/

/-- C3 counterexample: the claim maps `"AA"` to 26 (bijective base-26), but
`get_sort_column_index` only converts single letters and falls back to
`int("AA")`, whose failure yields 0. -/
theorem get_sort_column_index_counterexample :
    get_sort_column_index "AA" = 0 ∧ get_sort_column_index "AA" ≠ 26 := by
  constructor <;> decide

/-- C3 amended: after stripping and upper-casing, a single letter `A`..`Z`
maps to its 0-based letter index; any other text parsing as a decimal integer
`n` maps to `max 0 (n - 1)`; all remaining text (multi-letter column names
such as `"AA"` included) maps to 0. -/
theorem get_sort_column_index_amended :
    (∀ (t : String) (c : Char), pyUpper (pyStrip t.data) = [c] → 'A' ≤ c → c ≤ 'Z' →
        get_sort_column_index t = (c.toNat : Int) - 65)
    ∧ (∀ (t : String) (n : Int),
        (∀ c : Char, pyUpper (pyStrip t.data) = [c] → ¬('A' ≤ c ∧ c ≤ 'Z')) →
        pyInt (pyUpper (pyStrip t.data)) = some n →
        get_sort_column_index t = max 0 (n - 1))
    ∧ (∀ t : String,
        (∀ c : Char, pyUpper (pyStrip t.data) = [c] → ¬('A' ≤ c ∧ c ≤ 'Z')) →
        pyInt (pyUpper (pyStrip t.data)) = none →
        get_sort_column_index t = 0) := by
  refine ⟨?_, ?_, ?_⟩
  · intro t c h h1 h2
    have hA : ('A'.toNat : Int) = 65 := by decide
    simp only [get_sort_column_index, h, if_pos (And.intro h1 h2), hA]
  · intro t n hnl hint
    rcases hs : pyUpper (pyStrip t.data) with _ | ⟨c, rest⟩
    · rw [hs] at hint
      simp [pyInt] at hint
    · rcases rest with _ | ⟨c2, rest2⟩
      · rw [hs] at hint
        simp only [get_sort_column_index, hs]
        rw [if_neg (hnl c hs), hint]
      · rw [hs] at hint
        simp only [get_sort_column_index, hs]
        rw [hint]
  · intro t hnl hint
    rcases hs : pyUpper (pyStrip t.data) with _ | ⟨c, rest⟩
    · simp only [get_sort_column_index, hs]
    · rcases rest with _ | ⟨c2, rest2⟩
      · rw [hs] at hint
        simp only [get_sort_column_index, hs]
        rw [if_neg (hnl c hs), hint]
      · rw [hs] at hint
        simp only [get_sort_column_index, hs]
        rw [hint]

/-- C3 amended, exercised on concrete inputs. -/
theorem get_sort_column_index_amended_witness :
    get_sort_column_index "B" = 1
    ∧ get_sort_column_index " 27 " = 26
    ∧ get_sort_column_index "AA" = 0 := by
  refine ⟨?_, ?_, ?_⟩
  · have h := get_sort_column_index_amended.1 "B" 'B' (by decide) (by decide) (by decide)
    rw [h]; decide
  · have h := get_sort_column_index_amended.2.1 " 27 " 27
      (fun c hc => by
        rw [show pyUpper (pyStrip (" 27 ".data)) = ['2', '7'] from by decide] at hc
        simp at hc)
      (by decide)
    rw [h]; decide
  · exact get_sort_column_index_amended.2.2 "AA"
      (fun c hc => by
        rw [show pyUpper (pyStrip ("AA".data)) = ['A', 'A'] from by decide] at hc
        simp at hc)
      (by decide)

/-! ## C6 — the repeated-header block is dead code -/

/-- C6 — for Excel and CSV alike, and whatever the options, per-file data
extraction returns only the plain data rows (with the optional source-label
cell): the repeated-header block is guarded by the length of a
just-initialised empty list, so no separator row and no repeated header rows
are ever emitted. -/
theorem extract_no_repeated_header_block :
    (∀ (V : Type) (cfg : Cfg V) (grid : Grid V) (filename : V),
        extract_excel_data cfg grid filename = excelDataRowsPlain cfg grid filename)
    ∧ (∀ (V : Type) (cfg : Cfg V) (grid : Grid V) (filename : V) (i : Nat)
        (gh : Option (List (Row V))) (pre : List (Row V)),
        (process_csv_file cfg grid filename i gh pre).file_data =
          csvDataRowsPlain cfg grid filename) := by
  constructor
  · intro V cfg grid filename
    simp [extract_excel_data, excelDataRowsPlain]
  · intro V cfg grid filename i gh pre
    simp [process_csv_file, csvDataRowsPlain]

/-! ## C10 — workbook handle release -/

/-- Events on the workbook handle during one `_process_excel_file` call. -/
inductive HandleEvent where
  | openWorkbook
  | closeWorkbook
  | raiseException
deriving DecidableEq

/-- Control-flow skeleton of `_process_excel_file` (compiler.py 716-769) with
respect to the workbook handle: `openpyxl.load_workbook` runs at entry (lines
730-733); the body (preliminary/header capture and `_extract_excel_data`) is
not wrapped in `try`/`finally` or a `with` block; `wb.close()` (line 767)
executes only when the body completes.  `body_ok = false` models an exception
raised in the body (e.g. a corrupt sheet read by `iter_rows`), which
propagates to the caller's handler at compiler.py 692 without passing through
the close. -/
def process_excel_file_handle_trace (body_ok : Bool) : List HandleEvent :=
  [HandleEvent.openWorkbook] ++
    (if body_ok then [HandleEvent.closeWorkbook] else [HandleEvent.raiseException])

/-- Every workbook opened during the call was closed before it returned. -/
def handleReleasedBeforeReturn (tr : List HandleEvent) : Bool :=
  tr.count HandleEvent.closeWorkbook == tr.count HandleEvent.openWorkbook

/-- C10 counterexample: on the failure path (an exception raised during
extraction) the workbook opened by `_process_excel_file` is not released
before the operation returns, contrary to the claim. -/
theorem handle_release_counterexample :
    handleReleasedBeforeReturn (process_excel_file_handle_trace false) = false := by
  decide

/-- C10 amended: the workbook handle is released before return on the success
path, and only there — an exception raised during extraction propagates
without reaching the `wb.close()` call. -/
theorem handle_release_amended :
    ∀ body_ok : Bool,
      handleReleasedBeforeReturn (process_excel_file_handle_trace body_ok) = body_ok := by
  decide

/-! ## C4 — merged-span capture -/

/-- Modelled from the spec's words (§3 `merged_spans`, §4.1): the merged
regions whose top row lies within the header block
(`min_row ≤ header_start_row + header_rows - 1`), each captured exactly
once. -/
def mergedSpansClaimed {V : Type} (cfg : Cfg V) (ranges : List MRange) :
    List MRange :=
  (ranges.filter (fun mr =>
    decide (mr.min_row ≤ cfg.header_start_row + cfg.header_rows - 1))).dedup

/-- Closed form of the header-capture loop: the headers are the rows of the
header block in order, and the qualifying merged ranges are appended once per
header row. -/
theorem headerLoop_acc {V : Type} (cfg : Cfg V) (grid : Grid V)
    (ranges : List MRange) (hasMerged : Bool) :
    ∀ (ks : List Nat) (acc : List (Row V) × List MRange),
      headerLoop cfg grid ranges hasMerged ks acc =
        (acc.1 ++ ks.map (fun k => wsRow grid (cfg.header_start_row + k)),
          acc.2 ++
            (if hasMerged then
              (List.replicate ks.length
                (ranges.filter (fun mr =>
                  decide (mr.min_row ≤ cfg.header_start_row + cfg.header_rows)))).flatten
            else []))
  | [], acc => by simp [headerLoop]
  | k :: rest, acc => by
    rw [headerLoop, headerLoop_acc cfg grid ranges hasMerged rest _]
    cases hasMerged
    · simp
    · simp [List.replicate_succ]

/-- A concrete configuration used by witnesses and counterexamples: cells are
strings, `str` is the identity, and the source label is the literal
`"Fichier source"`. -/
def wCfg (hsr hr : Nat) (addf sortd : Bool) (sortc : Int)
    (reph rempty remdup : Bool) : Cfg String :=
  ⟨hsr, hr, addf, sortd, sortc, reph, rempty, remdup, fun s => s, "Fichier source"⟩

/-- C4 counterexample: with one header row starting at row 1, a merged range
whose top row is 2 (the first data row) is captured although the claim admits
only ranges with top row ≤ 1; and with two header rows, a qualifying range is
captured twice although the claim requires a duplicate-free collection. -/
theorem merged_span_capture_counterexample :
    ((process_excel_file (wCfg 1 1 false false 0 false false false)
        [[some "H"]] [⟨2, 1, 2, 2⟩] "a" 0 none []).file_merged_cells
      = [⟨2, 1, 2, 2⟩]
      ∧ mergedSpansClaimed (wCfg 1 1 false false 0 false false false)
          [⟨2, 1, 2, 2⟩] = [])
    ∧ (process_excel_file (wCfg 1 2 false false 0 false false false)
        [[some "H"], [some "H2"]] [⟨1, 1, 1, 2⟩] "a" 0 none []).file_merged_cells
      = [⟨1, 1, 1, 2⟩, ⟨1, 1, 1, 2⟩] := by
  refine ⟨⟨?_, ?_⟩, ?_⟩ <;> decide

/-- C4 amended: on the first file the captured merged-range list consists of
every merged range whose top row is ≤ `header_start_row + header_rows`,
appended once per header row (the range scan is nested inside the header-row
loop), so each qualifying range appears `header_rows` times, in sheet
order. -/
theorem merged_span_capture_amended :
    ∀ (V : Type) (cfg : Cfg V) (grid : Grid V) (ranges : List MRange) (name : V)
      (pre : List (Row V)),
      (process_excel_file cfg grid ranges name 0 none pre).file_merged_cells =
        (List.replicate cfg.header_rows
          (ranges.filter (fun mr =>
            decide (mr.min_row ≤ cfg.header_start_row + cfg.header_rows)))).flatten := by
  intro V cfg grid ranges name pre
  simp [process_excel_file, headerLoop_acc]

/-! ## C5 — the structure check (`FileVerification`, `verify_files`) -/

/-- Outcome of opening an Excel file for verification
(`FileVerification.verify_excel_file`, compiler.py 543-564): the workbook
opens (with its `max_row` and sheet-protection flag), or the open raises
`PermissionError`, or some other exception. -/
inductive ExcelVerifySource where
  | opened (max_row : Nat) (sheetProtected : Bool)
  | permissionError
  | openFailure
deriving DecidableEq

/-- The verification messages of compiler.py 543-607, as an enumeration; the
French structure message interpolates the actual row count, carried here as
the argument of `structureIncompatible`. -/
inductive VerifyMsg where
  | structureIncompatible (rows : Nat)
  | writeProtected
  | openedElsewhere
  | verifyError
  | compatible
  | compatibleLatin1
  | encodingError
  | unsupportedFormat
deriving DecidableEq

/-- Embedding of `FileVerification.verify_excel_file` (compiler.py 531-564). -/
def verify_excel_file (src : ExcelVerifySource)
    (header_start_row header_rows : Nat) : Bool × VerifyMsg :=
  match src with
  | .opened max_row prot =>
    if max_row < header_start_row + header_rows then
      (false, .structureIncompatible max_row)
    else if prot then (false, .writeProtected)
    else (true, .compatible)
  | .permissionError => (false, .openedElsewhere)
  | .openFailure => (false, .verifyError)

/-- Outcome of reading a CSV file for verification (compiler.py 567-607): a
row count via the first encoding that decodes (`utf-8-sig`, then `latin-1`),
or one of the failure modes. -/
inductive CsvVerifySource where
  | readUtf8 (row_count : Nat)
  | readLatin1 (row_count : Nat)
  | encodingFailure
  | permissionError
  | openFailure
deriving DecidableEq

/-- Embedding of `FileVerification.verify_csv_file` (compiler.py 567-607). -/
def verify_csv_file (src : CsvVerifySource)
    (header_start_row header_rows : Nat) : Bool × VerifyMsg :=
  match src with
  | .readUtf8 n =>
    if n < header_start_row + header_rows then (false, .structureIncompatible n)
    else (true, .compatible)
  | .readLatin1 n =>
    if n < header_start_row + header_rows then (false, .structureIncompatible n)
    else (true, .compatibleLatin1)
  | .encodingFailure => (false, .encodingError)
  | .permissionError => (false, .openedElsewhere)
  | .openFailure => (false, .verifyError)

/-- One file submitted to `verify_files`, dispatched by extension
(compiler.py 3368-3378). -/
inductive VFile where
  | excelFile (name : String) (src : ExcelVerifySource)
  | csvFile (name : String) (src : CsvVerifySource)
  | otherFile (name : String)
deriving DecidableEq

/-- The display name of a verified file. -/
def VFile.name : VFile → String
  | .excelFile n _ => n
  | .csvFile n _ => n
  | .otherFile n => n

/-- The per-file extension dispatch of `verify_files` (compiler.py
3367-3378). -/
def verifyOne (header_start_row header_rows : Nat) : VFile → Bool × VerifyMsg
  | .excelFile _ src => verify_excel_file src header_start_row header_rows
  | .csvFile _ src => verify_csv_file src header_start_row header_rows
  | .otherFile _ => (false, VerifyMsg.unsupportedFormat)

/-- Embedding of `ModernExcelCompilerApp.verify_files` (compiler.py 3331-3391): classify
each file as compatible, or incompatible with a reason.  The progress dialog
and its cancel button are UI state, modelled as never cancelled. -/
def verify_files (header_start_row header_rows : Nat) :
    List VFile → List String × List (String × VerifyMsg)
  | [] => ([], [])
  | f :: rest =>
    let vr := verifyOne header_start_row header_rows f
    let tails := verify_files header_start_row header_rows rest
    if vr.1 then (f.name :: tails.1, tails.2)
    else (tails.1, (f.name, vr.2) :: tails.2)

/-- Unfolding of `verify_files` on a non-empty list. -/
theorem verify_files_cons (hsr hr : Nat) (f : VFile) (rest : List VFile) :
    verify_files hsr hr (f :: rest) =
      if (verifyOne hsr hr f).1 then
        (f.name :: (verify_files hsr hr rest).1, (verify_files hsr hr rest).2)
      else ((verify_files hsr hr rest).1,
        (f.name, (verifyOne hsr hr f).2) :: (verify_files hsr hr rest).2) :=
  rfl

/-- Compatible names come from the submitted files. -/
theorem mem_verify_files_compat (hsr hr : Nat) :
    ∀ (files : List VFile) (x : String),
      x ∈ (verify_files hsr hr files).1 → x ∈ files.map VFile.name
  | [], x, h => by simp [verify_files] at h
  | f :: rest, x, h => by
    rw [verify_files_cons] at h
    by_cases hc : (verifyOne hsr hr f).1 = true
    · rw [if_pos hc] at h
      rcases List.mem_cons.mp h with h1 | h2
      · rw [List.map_cons, h1]
        exact List.mem_cons_self _ _
      · rw [List.map_cons]
        exact List.mem_cons_of_mem _ (mem_verify_files_compat hsr hr rest x h2)
    · rw [if_neg hc] at h
      rw [List.map_cons]
      exact List.mem_cons_of_mem _ (mem_verify_files_compat hsr hr rest x h)

/-- A file that verification rejects ends in the incompatible list under its
reason, and (names being distinct) not in the compatible list. -/
theorem verify_files_records_incompatible (hsr hr : Nat) (name : String)
    (src : ExcelVerifySource) (msg : VerifyMsg) :
    ∀ files : List VFile,
      verify_excel_file src hsr hr = (false, msg) →
      VFile.excelFile name src ∈ files →
      (files.map VFile.name).Nodup →
      (name, msg) ∈ (verify_files hsr hr files).2
      ∧ name ∉ (verify_files hsr hr files).1 := by
  intro files hv hmem hnodup
  induction files with
  | nil => exact absurd hmem (List.not_mem_nil _)
  | cons f rest ih =>
    rw [List.map_cons] at hnodup
    have hnodup' := List.nodup_cons.mp hnodup
    rcases List.mem_cons.mp hmem with heq | hrest
    · subst heq
      rw [verify_files_cons]
      rw [show verifyOne hsr hr (VFile.excelFile name src) = (false, msg) from by
        simp [verifyOne, hv]]
      rw [if_neg (by simp : ¬(((false, msg).1 : Bool) = true))]
      refine ⟨List.mem_cons_self _ _, ?_⟩
      intro hx
      exact hnodup'.1 (mem_verify_files_compat hsr hr rest name hx)
    · have hne : VFile.name f ≠ name := by
        intro heq
        apply hnodup'.1
        have hmm : VFile.name (VFile.excelFile name src) ∈ rest.map VFile.name :=
          List.mem_map_of_mem _ hrest
        rw [heq]
        exact hmm
      obtain ⟨ih1, ih2⟩ := ih hrest hnodup'.2
      rw [verify_files_cons]
      by_cases hc : (verifyOne hsr hr f).1 = true
      · rw [if_pos hc]
        refine ⟨ih1, ?_⟩
        intro hx
        rcases List.mem_cons.mp hx with h1 | h2
        · exact hne h1.symm
        · exact ih2 h2
      · rw [if_neg hc]
        exact ⟨List.mem_cons_of_mem _ ih1, ih2⟩

/-- C5 — Structure check: an Excel file whose row count is smaller than the
declared header region fails verification with a structure error naming the
actual row count, is recorded in the incompatible list with that reason, and
is excluded from the compatible list handed to the merge (so it contributes
no data rows). -/
theorem structure_check_spec (header_start_row header_rows n : Nat) (prot : Bool)
    (name : String) (files : List VFile)
    (hshort : n < header_start_row + header_rows - 1)
    (hmem : VFile.excelFile name (.opened n prot) ∈ files)
    (hnodup : (files.map VFile.name).Nodup) :
    verify_excel_file (.opened n prot) header_start_row header_rows
      = (false, .structureIncompatible n)
    ∧ (name, VerifyMsg.structureIncompatible n)
        ∈ (verify_files header_start_row header_rows files).2
    ∧ name ∉ (verify_files header_start_row header_rows files).1 := by
  have hv : verify_excel_file (.opened n prot) header_start_row header_rows
      = (false, .structureIncompatible n) := by
    have hlt : n < header_start_row + header_rows := by omega
    simp [verify_excel_file, hlt]
  obtain ⟨h1, h2⟩ :=
    verify_files_records_incompatible header_start_row header_rows name
      (.opened n prot) (.structureIncompatible n) files hv hmem hnodup
  exact ⟨hv, h1, h2⟩

/-- C5, exercised on a concrete directory listing. -/
theorem structure_check_spec_witness :
    verify_excel_file (.opened 1 false) 2 2 = (false, .structureIncompatible 1)
    ∧ ("a.xlsx", VerifyMsg.structureIncompatible 1) ∈
        (verify_files 2 2 [VFile.excelFile "a.xlsx" (.opened 1 false),
          VFile.csvFile "b.csv" (.readUtf8 9)]).2
    ∧ "a.xlsx" ∉ (verify_files 2 2 [VFile.excelFile "a.xlsx" (.opened 1 false),
          VFile.csvFile "b.csv" (.readUtf8 9)]).1 :=
  structure_check_spec 2 2 1 false "a.xlsx"
    [VFile.excelFile "a.xlsx" (.opened 1 false), VFile.csvFile "b.csv" (.readUtf8 9)]
    (by decide) (by decide) (by decide)

/-! ## Supporting lemmas: the merge loop -/

/-- The data rows a file contributes to the merge (empty for failed files). -/
def fileDataRows {V : Type} (cfg : Cfg V) : SrcFile V → List (Row V)
  | .excel name grid _ => excelDataRowsPlain cfg grid name
  | .csv name grid => csvDataRowsPlain cfg grid name
  | .unsupported _ => []
  | .readFailure _ => []

/-- The repeated-header block of `_extract_excel_data` is dead code. -/
theorem extract_excel_data_eq_plain {V : Type} (cfg : Cfg V) (grid : Grid V)
    (filename : V) :
    extract_excel_data cfg grid filename = excelDataRowsPlain cfg grid filename := by
  simp [extract_excel_data, excelDataRowsPlain]

/-- The data component returned by `_process_excel_file`. -/
theorem process_excel_file_data {V : Type} (cfg : Cfg V) (grid : Grid V)
    (ranges : List MRange) (filename : V) (i : Nat)
    (gh : Option (List (Row V))) (pre : List (Row V)) :
    (process_excel_file cfg grid ranges filename i gh pre).file_data =
      extract_excel_data cfg grid filename := rfl

/-- The data component returned by `_process_csv_file` (its repeated-header
block is dead code as well). -/
theorem process_csv_file_data {V : Type} (cfg : Cfg V) (grid : Grid V)
    (filename : V) (i : Nat) (gh : Option (List (Row V))) (pre : List (Row V)) :
    (process_csv_file cfg grid filename i gh pre).file_data =
      csvDataRowsPlain cfg grid filename := by
  simp [process_csv_file, csvDataRowsPlain]

/-- The headers `_process_excel_file` extracts when no global headers are
established yet. -/
theorem process_excel_file_headers_none {V : Type} (cfg : Cfg V) (grid : Grid V)
    (ranges : List MRange) (filename : V) (i : Nat) (pre : List (Row V)) :
    (process_excel_file cfg grid ranges filename i none pre).file_headers =
      (List.range cfg.header_rows).map (fun k => wsRow grid (cfg.header_start_row + k)) := by
  simp [process_excel_file, headerLoop_acc]

/-- The headers `_process_csv_file` extracts when no global headers are
established yet. -/
theorem process_csv_file_headers_none {V : Type} (cfg : Cfg V) (grid : Grid V)
    (filename : V) (i : Nat) (pre : List (Row V)) :
    (process_csv_file cfg grid filename i none pre).file_headers =
      (List.range cfg.header_rows).filterMap (fun k =>
        grid[cfg.header_start_row - 1 + k]?) := rfl

/-- Each loop iteration appends exactly the file's data rows. -/
theorem processOne_combined {V : Type} (cfg : Cfg V) (st : RunState V) (i : Nat)
    (f : SrcFile V) :
    (processOne cfg st i f).combined_data = st.combined_data ++ fileDataRows cfg f := by
  cases f with
  | excel name grid ranges =>
    simp [processOne, fileDataRows, process_excel_file_data, extract_excel_data_eq_plain]
  | csv name grid =>
    simp [processOne, fileDataRows, process_csv_file_data]
  | unsupported name => simp [processOne, fileDataRows]
  | readFailure name => simp [processOne, fileDataRows]

/-- Once some headers are established, no later iteration changes them. -/
theorem processOne_headers_of_some {V : Type} (cfg : Cfg V) (st : RunState V)
    (i : Nat) (f : SrcFile V) (hs : List (Row V)) (h : st.headers = some hs) :
    (processOne cfg st i f).headers = some hs := by
  cases f <;> simp [processOne, h]

/-- While no headers are established, an iteration adopts the processed
file's headers exactly when the file is readable. -/
theorem processOne_headers_of_none {V : Type} (cfg : Cfg V) (st : RunState V)
    (i : Nat) (f : SrcFile V) (h : st.headers = none) :
    (processOne cfg st i f).headers =
      if f.isReadable then some (fileHeaders cfg f) else none := by
  cases f with
  | excel name grid ranges =>
    simp [processOne, h, SrcFile.isReadable, fileHeaders, process_excel_file_headers_none]
  | csv name grid =>
    simp [processOne, h, SrcFile.isReadable, fileHeaders, process_csv_file_headers_none]
  | unsupported name => simp [processOne, h, SrcFile.isReadable]
  | readFailure name => simp [processOne, h, SrcFile.isReadable]

/-- Established headers survive the rest of the loop. -/
theorem runLoop_headers_of_some {V : Type} (cfg : Cfg V) :
    ∀ (fs : List (SrcFile V)) (st : RunState V) (i : Nat) (hs : List (Row V)),
      st.headers = some hs → (runLoop cfg st i fs).headers = some hs
  | [], _, _, _, h => h
  | f :: rest, st, i, hs, h =>
    runLoop_headers_of_some cfg rest _ _ hs (processOne_headers_of_some cfg st i f hs h)

/-- A run over unreadable files establishes no headers. -/
theorem runLoop_headers_none_of_unreadable {V : Type} (cfg : Cfg V) :
    ∀ (fs : List (SrcFile V)) (st : RunState V) (i : Nat),
      st.headers = none → (∀ f ∈ fs, f.isReadable = false) →
      (runLoop cfg st i fs).headers = none
  | [], _, _, h, _ => h
  | f :: rest, st, i, h, hall => by
    rw [runLoop]
    refine runLoop_headers_none_of_unreadable cfg rest _ _ ?_
      (fun g hg => hall g (List.mem_cons_of_mem _ hg))
    rw [processOne_headers_of_none cfg st i f h, hall f (List.mem_cons_self _ _)]
    simp

/-- The loop's accumulated rows: the concatenation, in file order, of each
file's data rows. -/
theorem runLoop_combined {V : Type} (cfg : Cfg V) :
    ∀ (fs : List (SrcFile V)) (st : RunState V) (i : Nat),
      (runLoop cfg st i fs).combined_data =
        st.combined_data ++ (fs.map (fileDataRows cfg)).flatten
  | [], st, i => by simp [runLoop]
  | f :: rest, st, i => by
    rw [runLoop, runLoop_combined cfg rest _ _, processOne_combined]
    simp

/-- Splitting the loop at a list append. -/
theorem runLoop_append {V : Type} (cfg : Cfg V) :
    ∀ (A B : List (SrcFile V)) (st : RunState V) (i : Nat),
      runLoop cfg st i (A ++ B) = runLoop cfg (runLoop cfg st i A) (i + A.length) B
  | [], B, st, i => by simp [runLoop]
  | f :: rest, B, st, i => by
    rw [List.cons_append, runLoop, runLoop, runLoop_append cfg rest B _ _]
    congr 1
    simp
    omega

/-- The splitting loop flattens back to its inputs. -/
theorem splitSectionsGo_flatten {V : Type} :
    ∀ (l : List (Row V)) (sections : List (List (Row V))) (current : List (Row V)),
      (splitSectionsGo sections current l).flatten = sections.flatten ++ current ++ l
  | [], sections, current => by
    rw [splitSectionsGo]
    by_cases h : current.isEmpty = true
    · rw [if_pos h, List.isEmpty_iff.mp h]
      simp
    · rw [if_neg h]
      simp
  | row :: rest, sections, current => by
    rw [splitSectionsGo]
    by_cases hb : rowAllNone row = true
    · rw [if_pos hb, splitSectionsGo_flatten rest _ _]
      by_cases h : current.isEmpty = true
      · rw [if_pos h, List.isEmpty_iff.mp h]
        simp
      · rw [if_neg h]
        simp
    · rw [if_neg hb, splitSectionsGo_flatten rest _ _]
      simp

/-- The sections partition the row sequence. -/
theorem splitSections_flatten {V : Type} (data : List (Row V)) :
    (splitSections data).flatten = data := by
  rw [splitSections, splitSectionsGo_flatten]
  simp

/-- Sorting never changes the number of rows. -/
theorem sort_data_fn_length {V : Type} [LinearOrder V] (cfg : Cfg V)
    (data : List (Row V)) :
    (sort_data_fn cfg data).length = data.length := by
  rw [sort_data_fn]
  split
  · split
    · calc (((splitSections data).map (fun s =>
            s.take (cfg.header_rows + 1) ++
              List.insertionSort (rowLE (cfg.sort_column - 1))
                (s.drop (cfg.header_rows + 1)))).flatten).length
          = (((splitSections data).map (fun s =>
              s.take (cfg.header_rows + 1) ++
                List.insertionSort (rowLE (cfg.sort_column - 1))
                  (s.drop (cfg.header_rows + 1)))).map List.length).sum :=
            List.length_flatten _
        _ = ((splitSections data).map List.length).sum := by
            rw [List.map_map]
            apply congrArg
            apply List.map_congr_left
            intro s _
            simp [List.length_insertionSort]
            omega
        _ = ((splitSections data).flatten).length := (List.length_flatten _).symm
        _ = data.length := by rw [splitSections_flatten]
    · rfl
  · split
    · exact List.length_insertionSort _ _
    · rfl

/-- Deduplication keeps at least the first row. -/
theorem remove_duplicate_rows_ne_nil {V : Type} (toStr : V → String)
    (data : List (Row V)) (h : data ≠ []) :
    remove_duplicate_rows toStr data ≠ [] := by
  cases data with
  | nil => exact absurd rfl h
  | cons r rest => simp [remove_duplicate_rows, remove_duplicate_rows_go]

/-- The headers component of the post-compilation block. -/
theorem postProcess_headers {V : Type} [LinearOrder V] (cfg : Cfg V) (st : RunState V) :
    (postProcess cfg st).headers =
      if !st.combined_data.isEmpty && headersTruthy st.headers then
        (if cfg.add_filename && headersTruthy st.headers then
          appendSourceLabel st.headers cfg.fichier_source
        else st.headers)
      else st.headers := by
  rw [postProcess]
  split <;> rfl

/-- The rows component of the post-compilation block. -/
theorem postProcess_combined {V : Type} [LinearOrder V] (cfg : Cfg V) (st : RunState V) :
    (postProcess cfg st).combined_data =
      if !st.combined_data.isEmpty && headersTruthy st.headers then
        (if cfg.sort_data ∧
            cfg.sort_column < (((st.headers.getD []).getLastD []).length : Int) then
          sort_data_fn cfg
            (if cfg.remove_duplicates then
              remove_duplicate_rows cfg.toStr st.combined_data
            else st.combined_data)
        else
          (if cfg.remove_duplicates then
            remove_duplicate_rows cfg.toStr st.combined_data
          else st.combined_data))
      else st.combined_data := by
  rw [postProcess]
  split <;> rfl

/-- If the loop merged no rows, the run emits no rows. -/
theorem run_combined_nil {V : Type} [LinearOrder V] (cfg : Cfg V)
    (files : List (SrcFile V))
    (h : (runLoop cfg initState 0 files).combined_data = []) :
    (run cfg files).combined_data = [] := by
  rw [run, postProcess_combined]
  have hb : (runLoop cfg initState 0 files).combined_data.isEmpty = true :=
    List.isEmpty_iff.mpr h
  rw [hb]
  simpa using h

/-- If the loop merged rows, the run emits rows (deduplication keeps at least
one row, sorting preserves the count). -/
theorem run_combined_ne_nil {V : Type} [LinearOrder V] (cfg : Cfg V)
    (files : List (SrcFile V))
    (h : (runLoop cfg initState 0 files).combined_data ≠ []) :
    (run cfg files).combined_data ≠ [] := by
  rw [run, postProcess_combined]
  have hinner :
      (if cfg.remove_duplicates then
        remove_duplicate_rows cfg.toStr (runLoop cfg initState 0 files).combined_data
      else (runLoop cfg initState 0 files).combined_data) ≠ [] := by
    split
    · exact remove_duplicate_rows_ne_nil _ _ h
    · exact h
  split
  · split
    · intro hnil
      have hlen := sort_data_fn_length cfg
        (if cfg.remove_duplicates then
          remove_duplicate_rows cfg.toStr (runLoop cfg initState 0 files).combined_data
        else (runLoop cfg initState 0 files).combined_data)
      rw [hnil] at hlen
      exact hinner (List.length_eq_zero.mp hlen.symm)
    · exact hinner
  · exact h

/-- With sorting and deduplication disabled, the post-compilation block leaves
the rows untouched. -/
theorem run_combined_no_post {V : Type} [LinearOrder V] (cfg : Cfg V)
    (files : List (SrcFile V))
    (hsort : cfg.sort_data = false) (hdup : cfg.remove_duplicates = false) :
    (run cfg files).combined_data = (runLoop cfg initState 0 files).combined_data := by
  rw [run, postProcess_combined]
  split
  · rw [if_neg (by simp [hsort]), if_neg (by simp [hdup])]
  · rfl

/-- A `filterMap` that always keeps is a `map`. -/
theorem filterMap_some_eq_map {α β : Type} (f : α → β) :
    ∀ l : List α, l.filterMap (fun a => some (f a)) = l.map f
  | [] => rfl
  | a :: l => by
    rw [List.filterMap_cons, List.map_cons, filterMap_some_eq_map f l]

/-- With the empty-row filter off, Excel extraction maps the data region,
appending the optional label. -/
theorem excelDataRowsPlain_no_filter {V : Type} (cfg : Cfg V) (grid : Grid V)
    (name : V) (hemp : cfg.remove_empty_rows = false) :
    excelDataRowsPlain cfg grid name =
      (grid.drop (cfg.header_start_row + cfg.header_rows - 1)).map
        (fun row => if cfg.add_filename then row ++ [some name] else row) := by
  rw [excelDataRowsPlain, hemp]
  exact filterMap_some_eq_map
    (fun row => if cfg.add_filename then row ++ [some name] else row) _

/-- With the empty-row filter off, CSV extraction maps the data region,
appending the optional label. -/
theorem csvDataRowsPlain_no_filter {V : Type} (cfg : Cfg V) (grid : Grid V)
    (name : V) (hemp : cfg.remove_empty_rows = false) :
    csvDataRowsPlain cfg grid name =
      (grid.drop (cfg.header_start_row - 1 + cfg.header_rows)).map
        (fun row => if cfg.add_filename then row ++ [some name] else row) := by
  rw [csvDataRowsPlain, hemp]
  exact filterMap_some_eq_map
    (fun row => if cfg.add_filename then row ++ [some name] else row) _

/-- C2 — Row-order preservation: with sorting, deduplication and empty-row
filtering disabled, the emitted rows are the concatenation, in file-list
order, of each successfully read file's data rows (with the optional label
cell), each file's rows in their original within-file order; failed files
contribute nothing. -/
theorem run_row_order {V : Type} [LinearOrder V] (cfg : Cfg V)
    (files : List (SrcFile V))
    (hsort : cfg.sort_data = false) (hdup : cfg.remove_duplicates = false)
    (hemp : cfg.remove_empty_rows = false) :
    (run cfg files).combined_data =
      (files.map (fun f =>
        match f with
        | .excel name grid _ =>
          (grid.drop (cfg.header_start_row + cfg.header_rows - 1)).map
            (fun row => if cfg.add_filename then row ++ [some name] else row)
        | .csv name grid =>
          (grid.drop (cfg.header_start_row - 1 + cfg.header_rows)).map
            (fun row => if cfg.add_filename then row ++ [some name] else row)
        | .unsupported _ => []
        | .readFailure _ => [])).flatten := by
  have hfd : ∀ f : SrcFile V, fileDataRows cfg f =
      (match f with
      | .excel name grid _ =>
        (grid.drop (cfg.header_start_row + cfg.header_rows - 1)).map
          (fun row => if cfg.add_filename then row ++ [some name] else row)
      | .csv name grid =>
        (grid.drop (cfg.header_start_row - 1 + cfg.header_rows)).map
          (fun row => if cfg.add_filename then row ++ [some name] else row)
      | .unsupported _ => []
      | .readFailure _ => []) := by
    intro f
    cases f with
    | excel name grid ranges =>
      simpa [fileDataRows] using excelDataRowsPlain_no_filter cfg grid name hemp
    | csv name grid =>
      simpa [fileDataRows] using csvDataRowsPlain_no_filter cfg grid name hemp
    | unsupported name => rfl
    | readFailure name => rfl
  calc (run cfg files).combined_data
      = (runLoop cfg initState 0 files).combined_data :=
        run_combined_no_post cfg files hsort hdup
    _ = initState.combined_data ++ (files.map (fileDataRows cfg)).flatten :=
        runLoop_combined cfg files initState 0
    _ = (files.map (fileDataRows cfg)).flatten := by simp [initState]
    _ = _ := by
        apply congrArg
        exact List.map_congr_left (fun f _ => hfd f)

/-- C2, exercised on the spec's three-file scenario (one Excel file with two
data rows, one CSV file with one data row, one failing file). -/
theorem run_row_order_witness :
    (run (wCfg 1 1 true false 0 false false false)
      [SrcFile.excel "f1.xlsx"
        [[some "Name", some "Age"], [some "Ann", some "30"], [some "Bo", some "25"]] [],
       SrcFile.csv "f2.csv" [[some "Name", some "Age"], [some "Cy", some "40"]],
       SrcFile.readFailure "f3.xlsx"]).combined_data
    = [[some "Ann", some "30", some "f1.xlsx"],
       [some "Bo", some "25", some "f1.xlsx"],
       [some "Cy", some "40", some "f2.csv"]] := by
  have h := run_row_order (wCfg 1 1 true false 0 false false false)
    [SrcFile.excel "f1.xlsx"
      [[some "Name", some "Age"], [some "Ann", some "30"], [some "Bo", some "25"]] [],
     SrcFile.csv "f2.csv" [[some "Name", some "Age"], [some "Cy", some "40"]],
     SrcFile.readFailure "f3.xlsx"] rfl rfl rfl
  rw [h]
  decide

/-- C1 — Header singularity: the emitted header is exactly the header
extracted from the first successfully read file, however many later files
fail or succeed; the only change is the `"Fichier source"` label cell
appended to the last header row when the option is set and rows were
merged. -/
theorem run_header_singularity {V : Type} [LinearOrder V] (cfg : Cfg V)
    (A B : List (SrcFile V)) (f : SrcFile V)
    (hA : ∀ g ∈ A, g.isReadable = false) (hf : f.isReadable = true)
    (hH : fileHeaders cfg f ≠ []) :
    (run cfg (A ++ f :: B)).headers =
      some (if cfg.add_filename = true ∧
              (run cfg (A ++ f :: B)).combined_data.isEmpty = false then
        (fileHeaders cfg f).dropLast ++
          [(fileHeaders cfg f).getLastD [] ++ [some cfg.fichier_source]]
      else fileHeaders cfg f) := by
  have hA' : (runLoop cfg initState 0 A).headers = none :=
    runLoop_headers_none_of_unreadable cfg A initState 0 rfl hA
  have hstep : (processOne cfg (runLoop cfg initState 0 A) A.length f).headers =
      some (fileHeaders cfg f) := by
    rw [processOne_headers_of_none cfg _ _ f hA', hf]
    simp
  have hloop : (runLoop cfg initState 0 (A ++ f :: B)).headers =
      some (fileHeaders cfg f) := by
    rw [runLoop_append, Nat.zero_add, runLoop]
    exact runLoop_headers_of_some cfg B _ _ _ hstep
  have htruthy : headersTruthy (runLoop cfg initState 0 (A ++ f :: B)).headers = true := by
    rw [hloop]
    simp [headersTruthy, hH]
  rw [run, postProcess_headers]
  cases hcd : (runLoop cfg initState 0 (A ++ f :: B)).combined_data.isEmpty with
  | true =>
    rw [if_neg (by simp :
      ¬((!true && headersTruthy (runLoop cfg initState 0 (A ++ f :: B)).headers) = true))]
    rw [hloop]
    have hrun0 : (postProcess cfg (runLoop cfg initState 0 (A ++ f :: B))).combined_data
        = [] :=
      run_combined_nil cfg (A ++ f :: B) (List.isEmpty_iff.mp hcd)
    rw [if_neg (fun hcond => by
      rw [hrun0] at hcond
      exact absurd hcond.2 (by simp))]
  | false =>
    rw [if_pos (by simp [htruthy] :
      ((!false && headersTruthy (runLoop cfg initState 0 (A ++ f :: B)).headers) = true))]
    have hrunne : (postProcess cfg (runLoop cfg initState 0 (A ++ f :: B))).combined_data.isEmpty
        = false :=
      List.isEmpty_eq_false.mpr
        (run_combined_ne_nil cfg (A ++ f :: B) (List.isEmpty_eq_false.mp hcd))
    by_cases hadd : cfg.add_filename = true
    · rw [if_pos (by simp [hadd, htruthy] :
        ((cfg.add_filename && headersTruthy (runLoop cfg initState 0 (A ++ f :: B)).headers)
          = true))]
      rw [hloop, if_pos (And.intro hadd hrunne)]
      simp [appendSourceLabel]
    · rw [if_neg (fun hc => by
        simp only [Bool.and_eq_true] at hc
        exact hadd hc.1)]
      rw [hloop, if_neg (fun hcond => hadd hcond.1)]

/-- C1, exercised concretely: the first file fails, the second (Excel) file
supplies the header, a third (CSV) file merges more rows; the label column is
enabled. -/
theorem run_header_singularity_witness :
    (run (wCfg 1 1 true false 0 false false false)
      ([SrcFile.unsupported "x.txt"] ++ SrcFile.excel "f1.xlsx"
        [[some "Name", some "Age"], [some "Ann", some "30"]] [] ::
        [SrcFile.csv "f2.csv" [[some "Name", some "Age"], [some "Cy", some "40"]]])).headers
    = some [[some "Name", some "Age", some "Fichier source"]] := by
  have h := run_header_singularity (wCfg 1 1 true false 0 false false false)
    [SrcFile.unsupported "x.txt"]
    [SrcFile.csv "f2.csv" [[some "Name", some "Age"], [some "Cy", some "40"]]]
    (SrcFile.excel "f1.xlsx" [[some "Name", some "Age"], [some "Ann", some "30"]] [])
    (by decide) (by decide) (by decide)
  rw [h]
  decide

/-! ## C7 — the flat sort sorts `sort_column - 1`, not the chosen column -/

/-- A concrete configuration over numeric cells (witnesses that must evaluate
cell comparisons use `Nat` cells, whose order the kernel computes; the label
value is an arbitrary cell value). -/
def wCfgNat (hsr hr : Nat) (addf sortd : Bool) (sortc : Int)
    (reph rempty remdup : Bool) : Cfg Nat :=
  ⟨hsr, hr, addf, sortd, sortc, reph, rempty, remdup, fun n => toString n, 0⟩

/-- C7 — choosing column `"A"` converts to `sort_column = 0`, so `_sort_data`
computes `sort_idx = -1` and sorts on the **last** column (Python negative
indexing), not on column 0: on `[[1, 20], [2, 10]]` the code returns the rows
swapped (keys 20, 10), while sorting on column 0 (keys 1, 2) would leave them
in place. -/
theorem flat_sort_uses_wrong_column :
    sort_data_fn (wCfgNat 1 1 false true 0 false false false)
        [[some 1, some 20], [some 2, some 10]]
      = [[some 2, some 10], [some 1, some 20]]
    ∧ [[some 2, some 10], [some 1, some 20]]
      ≠ [[some 1, some 20], [some 2, some 10]] := by
  constructor <;> decide

/-! ## C8 — the sectioned sort invariant -/

/-- All sections produced by the splitting loop are non-empty, provided the
accumulated ones are. -/
theorem splitSectionsGo_ne_nil {V : Type} :
    ∀ (l : List (Row V)) (sections : List (List (Row V))) (current : List (Row V)),
      (∀ s ∈ sections, s ≠ []) →
      ∀ s ∈ splitSectionsGo sections current l, s ≠ []
  | [], sections, current, hsec => by
    rw [splitSectionsGo]
    by_cases h : current.isEmpty = true
    · rw [if_pos h]
      exact hsec
    · rw [if_neg h]
      intro s hs
      rcases List.mem_append.mp hs with h1 | h2
      · exact hsec s h1
      · rw [List.mem_singleton.mp h2]
        exact List.isEmpty_eq_false.mp (by revert h; cases current.isEmpty <;> simp)
  | row :: rest, sections, current, hsec => by
    rw [splitSectionsGo]
    by_cases hb : rowAllNone row = true
    · rw [if_pos hb]
      refine splitSectionsGo_ne_nil rest _ [row] ?_
      by_cases h : current.isEmpty = true
      · rw [if_pos h]
        exact hsec
      · rw [if_neg h]
        intro s hs
        rcases List.mem_append.mp hs with h1 | h2
        · exact hsec s h1
        · rw [List.mem_singleton.mp h2]
          exact List.isEmpty_eq_false.mp (by revert h; cases current.isEmpty <;> simp)
    · rw [if_neg hb]
      exact splitSectionsGo_ne_nil rest sections (current ++ [row]) hsec

/-- No row after the head of a section is fully blank (a blank row always
starts a fresh section). -/
theorem splitSectionsGo_tail_nonblank {V : Type} :
    ∀ (l : List (Row V)) (sections : List (List (Row V))) (current : List (Row V)),
      (∀ s ∈ sections, ∀ r ∈ s.tail, rowAllNone r = false) →
      (∀ r ∈ current.tail, rowAllNone r = false) →
      ∀ s ∈ splitSectionsGo sections current l, ∀ r ∈ s.tail, rowAllNone r = false
  | [], sections, current, hsec, hcur => by
    rw [splitSectionsGo]
    by_cases h : current.isEmpty = true
    · rw [if_pos h]
      exact hsec
    · rw [if_neg h]
      intro s hs
      rcases List.mem_append.mp hs with h1 | h2
      · exact hsec s h1
      · rw [List.mem_singleton.mp h2]
        exact hcur
  | row :: rest, sections, current, hsec, hcur => by
    rw [splitSectionsGo]
    by_cases hb : rowAllNone row = true
    · rw [if_pos hb]
      refine splitSectionsGo_tail_nonblank rest _ [row] ?_ ?_
      · by_cases h : current.isEmpty = true
        · rw [if_pos h]
          exact hsec
        · rw [if_neg h]
          intro s hs
          rcases List.mem_append.mp hs with h1 | h2
          · exact hsec s h1
          · rw [List.mem_singleton.mp h2]
            exact hcur
      · intro r hr
        exact absurd hr (List.not_mem_nil r)
    · rw [if_neg hb]
      have hb' : rowAllNone row = false := by
        revert hb
        cases rowAllNone row <;> simp
      refine splitSectionsGo_tail_nonblank rest sections (current ++ [row]) hsec ?_
      intro r hr
      rw [List.tail_append] at hr
      by_cases h : current.isEmpty = true
      · rw [if_pos h] at hr
        exact absurd hr (List.not_mem_nil r)
      · rw [if_neg h] at hr
        rcases List.mem_append.mp hr with h1 | h2
        · exact hcur r h1
        · rw [List.mem_singleton.mp h2]
          exact hb'

/-- Every section after the first starts with a fully blank separator row. -/
theorem splitSectionsGo_tail_blank_head {V : Type} :
    ∀ (l : List (Row V)) (sections : List (List (Row V))) (current : List (Row V)),
      (∀ s ∈ sections.tail, ∃ r t, s = r :: t ∧ rowAllNone r = true) →
      (sections ≠ [] → ∃ r t, current = r :: t ∧ rowAllNone r = true) →
      ∀ s ∈ (splitSectionsGo sections current l).tail,
        ∃ r t, s = r :: t ∧ rowAllNone r = true
  | [], sections, current, hsec, hcur => by
    rw [splitSectionsGo]
    by_cases h : current.isEmpty = true
    · rw [if_pos h]
      exact hsec
    · rw [if_neg h]
      cases sections with
      | nil =>
        intro s hs
        simp at hs
      | cons s0 srest =>
        intro s hs
        rw [List.cons_append, List.tail_cons] at hs
        rcases List.mem_append.mp hs with h1 | h2
        · exact hsec s h1
        · rw [List.mem_singleton.mp h2]
          exact hcur (by simp)
  | row :: rest, sections, current, hsec, hcur => by
    rw [splitSectionsGo]
    by_cases hb : rowAllNone row = true
    · rw [if_pos hb]
      refine splitSectionsGo_tail_blank_head rest _ [row] ?_ ?_
      · by_cases h : current.isEmpty = true
        · rw [if_pos h]
          exact hsec
        · rw [if_neg h]
          cases sections with
          | nil =>
            intro s hs
            simp at hs
          | cons s0 srest =>
            intro s hs
            rw [List.cons_append, List.tail_cons] at hs
            rcases List.mem_append.mp hs with h1 | h2
            · exact hsec s h1
            · rw [List.mem_singleton.mp h2]
              exact hcur (by simp)
      · intro _
        exact ⟨row, [], rfl, hb⟩
    · rw [if_neg hb]
      refine splitSectionsGo_tail_blank_head rest sections (current ++ [row]) hsec ?_
      intro hne
      obtain ⟨r, t, hrt, hr⟩ := hcur hne
      exact ⟨r, t ++ [row], by rw [hrt, List.cons_append], hr⟩

/-- The declarative shape of `splitSections`: non-empty sections, blank rows
only at section heads, a blank separator heading every section but the
first. -/
theorem splitSections_props {V : Type} (data : List (Row V)) :
    (∀ s ∈ splitSections data, s ≠ [])
    ∧ (∀ s ∈ splitSections data, ∀ r ∈ s.tail, rowAllNone r = false)
    ∧ (∀ s ∈ (splitSections data).tail, ∃ r t, s = r :: t ∧ rowAllNone r = true) := by
  refine ⟨?_, ?_, ?_⟩
  · exact splitSectionsGo_ne_nil data [] [] (by intro s hs; simp at hs)
  · exact splitSectionsGo_tail_nonblank data [] [] (by intro s hs; simp at hs)
      (by intro r hr; simp at hr)
  · exact splitSectionsGo_tail_blank_head data [] [] (by intro s hs; simp at hs)
      (fun h => absurd rfl h)

/-- C8 — Sectioned sort invariant: with repeated headers enabled, the rows
are partitioned at fully blank separator rows into sections (which
concatenate back, in order, to the input); in each output section the first
`header_rows + 1` rows stay at the top unreordered while only the remaining
rows are sorted (a permutation of the same section's remaining rows, so no
row leaves its section). -/
theorem sectioned_sort_invariant {V : Type} [LinearOrder V] (cfg : Cfg V)
    (data : List (Row V))
    (hrep : cfg.repeat_headers = true)
    (hidx : ∀ s ∈ splitSections data, ∀ r ∈ s.drop (cfg.header_rows + 1),
      (pyGet r (cfg.sort_column - 1)).isSome = true) :
    (splitSections data).flatten = data
    ∧ (∀ s ∈ splitSections data, s ≠ [] ∧ ∀ r ∈ s.tail, rowAllNone r = false)
    ∧ (∀ s ∈ (splitSections data).tail, ∃ r t, s = r :: t ∧ rowAllNone r = true)
    ∧ sort_data_fn cfg data =
        ((splitSections data).map (fun s =>
          s.take (cfg.header_rows + 1) ++
            List.insertionSort (rowLE (cfg.sort_column - 1))
              (s.drop (cfg.header_rows + 1)))).flatten
    ∧ (∀ s ∈ splitSections data,
        (List.insertionSort (rowLE (cfg.sort_column - 1))
          (s.drop (cfg.header_rows + 1))).Perm (s.drop (cfg.header_rows + 1))) := by
  refine ⟨splitSections_flatten data, ?_, (splitSections_props data).2.2, ?_, ?_⟩
  · intro s hs
    exact ⟨(splitSections_props data).1 s hs, (splitSections_props data).2.1 s hs⟩
  · have hg : ((splitSections data).all (fun s =>
        (s.drop (cfg.header_rows + 1)).all (fun r =>
          (pyGet r (cfg.sort_column - 1)).isSome))) = true := by
      rw [List.all_eq_true]
      intro s hs
      rw [List.all_eq_true]
      intro r hr
      exact hidx s hs r hr
    rw [sort_data_fn, if_pos hrep, if_pos hg]
  · intro s _
    exact List.perm_insertionSort _ _

/-- C8, exercised on two sections of numeric rows (one section without and
one with a leading separator). -/
theorem sectioned_sort_invariant_witness :
    sort_data_fn (wCfgNat 1 1 false true 1 true false false)
        [[some 9, some 9], [some 8, some 8], [some 3, some 3], [some 1, some 1],
          [none, none], [some 7, some 7], [some 5, some 5], [some 2, some 2]]
      = [[some 9, some 9], [some 8, some 8], [some 1, some 1], [some 3, some 3],
          [none, none], [some 7, some 7], [some 2, some 2], [some 5, some 5]]
    ∧ (splitSections
        ([[some 9, some 9], [some 8, some 8], [some 3, some 3], [some 1, some 1],
          [none, none], [some 7, some 7], [some 5, some 5], [some 2, some 2]] :
          List (Row Nat))).flatten
      = [[some 9, some 9], [some 8, some 8], [some 3, some 3], [some 1, some 1],
          [none, none], [some 7, some 7], [some 5, some 5], [some 2, some 2]] := by
  have h := sectioned_sort_invariant (wCfgNat 1 1 false true 1 true false false)
    [[some 9, some 9], [some 8, some 8], [some 3, some 3], [some 1, some 1],
      [none, none], [some 7, some 7], [some 5, some 5], [some 2, some 2]]
    rfl (by decide)
  refine ⟨?_, h.1⟩
  rw [h.2.2.2.1]
  decide

end ExcelCompiler
